import Mathlib

/-!
Verification of the room/session relay and auxiliary HTTP endpoints of
`src/server.js` (a socket.io signaling server with two proxy endpoints).

The relay state is embedded shallowly:
* `rooms` mirrors the global `rooms` object (line 104): an association list
  from room id to the member list, mutated by push/filter/delete.
* `adapter` mirrors socket.io adapter room membership (`socket.join`,
  `socket.to(roomId).emit`): notification recipients are the adapter members
  of the room minus the emitting socket. Joining an adapter room twice is a
  no-op (set semantics), unlike the `rooms` push.
* `connected` mirrors the set of live sockets; `io.to(target)` delivers to
  `target` exactly when it is live.
* `handlers` records one entry per executed `join-room` handler, because the
  `disconnect` and `signal` listeners are registered inside the join handler
  (lines 121 and 129): a socket that joined twice has two of each listener.

JavaScript dictionary access on a missing key yields `undefined`;
`undefined.filter` throws a TypeError. The leave path therefore returns
`Except Unit`, with `.error ()` standing for the thrown TypeError.
-/

abbrev ConnId := String
abbrev RoomId := String

/-- Events the server emits to specific connections; the first field is the
recipient connection. -/
inductive Event
  | userConnected (dst who : ConnId)
  | userDisconnected (dst who : ConnId)
  | signalMsg (dst sender : ConnId) (payload : String)
deriving DecidableEq

abbrev RoomTable := List (RoomId × List ConnId)

/-- `t[r]` (first binding wins, as JS object keys are unique). -/
def lookupRoom : RoomTable → RoomId → Option (List ConnId)
  | [], _ => none
  | (r', ms) :: t, r => if r' = r then some ms else lookupRoom t r

/-- `t[r] = ms`: replace the binding in place, or append a fresh one. -/
def setRoom : RoomTable → RoomId → List ConnId → RoomTable
  | [], r, ms => [(r, ms)]
  | (r', ms') :: t, r, ms =>
      if r' = r then (r, ms) :: t else (r', ms') :: setRoom t r ms

/-- `delete t[r]`. -/
def delRoom (t : RoomTable) (r : RoomId) : RoomTable :=
  t.filter (fun p => p.1 ≠ r)

/-- Full server state driven by the connection event handlers. -/
structure ServerState where
  rooms : RoomTable
  adapter : RoomTable
  connected : List ConnId
  handlers : List (ConnId × RoomId)
deriving DecidableEq

def initState : ServerState := ⟨[], [], [], []⟩

/-- The `join-room` handler body (lines 109–119 plus listener registration):
lazily create `rooms[roomId]`, push the socket id, join the adapter room,
notify every other adapter member with `user-connected`, and register one
`disconnect`/`signal` listener pair. -/
def joinRoom (s : ServerState) (c : ConnId) (R : RoomId) :
    ServerState × List Event :=
  let ms := (lookupRoom s.rooms R).getD []
  let rooms' := setRoom s.rooms R (ms ++ [c])
  let ams := (lookupRoom s.adapter R).getD []
  let adapter' := if c ∈ ams then s.adapter else setRoom s.adapter R (ams ++ [c])
  let recips := ((lookupRoom adapter' R).getD []).filter (fun x => x ≠ c)
  ({ rooms := rooms', adapter := adapter', connected := s.connected,
     handlers := s.handlers ++ [(c, R)] },
   recips.map (fun x => Event.userConnected x c))

/-- One registered `disconnect` listener body (lines 121–126):
`rooms[roomId] = rooms[roomId].filter(id => id !== socket.id)` throws when
`rooms[roomId]` is `undefined` (modelled as `.error ()`); otherwise filter,
emit `user-disconnected` to the remaining adapter members, and delete the
entry when the filtered list is empty. -/
def leaveBody (t : RoomTable) (ad : RoomTable) (c : ConnId) (R : RoomId) :
    Except Unit (RoomTable × List Event) :=
  match lookupRoom t R with
  | none => .error ()
  | some ms =>
      let ms' := ms.filter (fun x => x ≠ c)
      let t' := setRoom t R ms'
      let recips := ((lookupRoom ad R).getD []).filter (fun x => x ≠ c)
      let evs := recips.map (fun x => Event.userDisconnected x c)
      if ms'.length = 0 then .ok (delRoom t' R, evs) else .ok (t', evs)

/-- Run the socket's registered `disconnect` listeners in registration order.
A thrown TypeError aborts the remaining listeners (Node propagates the
exception out of `emit`); the Bool records whether that happened. -/
def runLeaves (ad : RoomTable) (c : ConnId) :
    List RoomId → RoomTable → RoomTable × List Event × Bool
  | [], t => (t, [], false)
  | R :: hs, t =>
      match leaveBody t ad c R with
      | .error _ => (t, [], true)
      | .ok out =>
          ((runLeaves ad c hs out.1).1,
           out.2 ++ (runLeaves ad c hs out.1).2.1,
           (runLeaves ad c hs out.1).2.2)

/-- Transport-level disconnect of `c`: socket.io first removes the socket
from every adapter room, then fires its `disconnect` listeners (one per
executed join); the socket and its listeners are gone afterwards. -/
def handleDisconnect (s : ServerState) (c : ConnId) :
    ServerState × List Event × Bool :=
  let ad' := s.adapter.map (fun p => (p.1, p.2.filter (fun x => x ≠ c)))
  let rs := (s.handlers.filter (fun h => h.1 = c)).map (fun h => h.2)
  let out := runLeaves ad' c rs s.rooms
  ({ rooms := out.1, adapter := ad',
     connected := s.connected.filter (fun x => x ≠ c),
     handlers := s.handlers.filter (fun h => h.1 ≠ c) }, out.2.1, out.2.2)

/-- The signaling relay `io.to(data.target).emit('signal', ...)`
(lines 129–134): deliver `{sender, signal}` to the target exactly when it is
a live socket, consulting no room state. -/
def forward (s : ServerState) (sender target : ConnId) (payload : String) :
    List Event :=
  if target ∈ s.connected then [Event.signalMsg target sender payload] else []

/-- A `signal` event raised by socket `c`: each `signal` listener registered
for `c` (one per executed join) forwards once; a socket that never joined has
no listener and forwards nothing. -/
def handleSignal (s : ServerState) (c target : ConnId) (payload : String) :
    List Event :=
  (s.handlers.filter (fun h => h.1 = c)).flatMap
    (fun _ => forward s c target payload)

/-- Client-driven operations on the relay. -/
inductive Op
  | connect (c : ConnId)
  | join (c : ConnId) (R : RoomId)
  | signal (c : ConnId) (target : ConnId) (payload : String)
  | disconnect (c : ConnId)
deriving DecidableEq

/-- One transport event. Events can only originate from a live socket, and
socket ids are process-unique. -/
def step (s : ServerState) : Op → ServerState × List Event
  | .connect c =>
      if c ∈ s.connected then (s, [])
      else ({ s with connected := s.connected ++ [c] }, [])
  | .join c R => if c ∈ s.connected then joinRoom s c R else (s, [])
  | .signal c t p =>
      if c ∈ s.connected then (s, handleSignal s c t p) else (s, [])
  | .disconnect c =>
      if c ∈ s.connected then
        ((handleDisconnect s c).1, (handleDisconnect s c).2.1)
      else (s, [])

def runFrom (s : ServerState) : List Op → ServerState
  | [] => s
  | op :: ops => runFrom (step s op).1 ops

/-- The state after a finite sequence of transport events from a fresh
server. -/
def run (ops : List Op) : ServerState :=
  runFrom initState ops

/-! ## HTTP surface: retry helper and the two endpoints -/

/-- Outcome of one upstream `axios.post`: either a successful response body,
or a thrown error carrying `error.response?.status` (`none` when there was no
HTTP response at all, e.g. a network failure). -/
inductive UpstreamResult
  | success (body : String)
  | failure (status : Option Nat)
deriving DecidableEq

/-- `retryRequest` (lines 28–40), with the upstream modelled as an oracle
from attempt index to outcome. Returns the final result together with the
list of backoff delays slept, in order. On a 429 with retries left it sleeps
`delay`, then recurses with `retries - 1` and `delay * 2`; every other error
is rethrown at once. -/
def retryRequest (upstream : Nat → UpstreamResult)
    (attempt retries delay : Nat) : (Except (Option Nat) String) × List Nat :=
  match upstream attempt with
  | .success b => (.ok b, [])
  | .failure st =>
      if h : st = some 429 ∧ 0 < retries then
        ((retryRequest upstream (attempt + 1) (retries - 1) (delay * 2)).1,
         delay :: (retryRequest upstream (attempt + 1) (retries - 1) (delay * 2)).2)
      else (.error st, [])
termination_by retries
decreasing_by all_goals omega

/-- JavaScript truthiness of an optional string field: `undefined` and the
empty string are falsy. -/
def truthy : Option String → Bool
  | none => false
  | some s => s ≠ ""

/-- Which upstream endpoints a request handler actually called, in order. -/
inductive UpstreamCall
  | detect
  | translate
  | summarize
deriving DecidableEq

/-- Responses of `POST /detect-and-translate`; constructor names carry the
HTTP status (`badRequest` = 400, `ok*` = 200, the rest = 500). -/
inductive DTResponse
  | badRequest
  | okSame (detectedLanguage translatedText message : String)
  | okTranslated (detectedLanguage translatedText : String)
  | detectFailed
  | translateFailed
  | caught
deriving DecidableEq

/-- The `POST /detect-and-translate` handler (lines 43–101). The two
upstream calls are oracles: `.error` models a thrown axios error (caught by
the handler's catch block), `.ok none` models a 2xx response whose body lacks
the expected shape. When the detected language equals the target, the
handler returns the original text with a message and never calls the
translation endpoint. -/
def detectAndTranslate
    (detectOracle : String → Except String (Option String))
    (translateOracle : String → String → String → Except String (Option String))
    (text targetLanguage : Option String) :
    DTResponse × List UpstreamCall :=
  if truthy text && truthy targetLanguage then
    let t := text.getD ""
    let tl := targetLanguage.getD ""
    match detectOracle t with
    | .error _ => (.caught, [.detect])
    | .ok none => (.detectFailed, [.detect])
    | .ok (some lang) =>
        if lang = tl then
          (.okSame lang t "The detected language is the same as the target language.",
           [.detect])
        else
          match translateOracle t lang tl with
          | .error _ => (.caught, [.detect, .translate])
          | .ok none => (.translateFailed, [.detect, .translate])
          | .ok (some tr) => (.okTranslated lang tr, [.detect, .translate])
  else (.badRequest, [])

/-- Responses of `POST /summarize-conversation` (200 or 500). -/
inductive SCResponse
  | okSummary (summary : String)
  | failedSummarize
deriving DecidableEq

/-- The `POST /summarize-conversation` handler (lines 139–168). It
destructures `conversationText` and goes straight to `retryRequest` — there
is no field validation, so the upstream call is attempted even when the
field is missing. The Bool records whether an upstream call was attempted. -/
def summarizeConversation (upstream : Nat → UpstreamResult)
    (conversationText : Option String) : SCResponse × Bool :=
  let _ := conversationText
  match (retryRequest upstream 0 3 1000).1 with
  | .ok body => (.okSummary body, true)
  | .error _ => (.failedSummarize, true)

/-! ## Spec-side description of join notifications (for claim C1) -/

/-- Modelled from the spec's words, for comparison with `joinAll`: with
`prior` the members already in the room in join order, each joiner `c`
produces one `user-connected` event carrying `c` to exactly the prior
members, and nobody else; the first joiner of a fresh room notifies no
one. -/
def specJoinNotices (prior : List ConnId) : List ConnId → List (List Event)
  | [] => []
  | c :: cs =>
      prior.map (fun x => Event.userConnected x c) ::
        specJoinNotices (prior ++ [c]) cs

/-- A sequence of `join-room` events for room `R`, returning the final state
and the list of notification batches, one batch per join. -/
def joinAll (s : ServerState) (R : RoomId) :
    List ConnId → ServerState × List (List Event)
  | [] => (s, [])
  | c :: cs =>
      ((joinAll (joinRoom s c R).1 R cs).1,
       (joinRoom s c R).2 :: (joinAll (joinRoom s c R).1 R cs).2)

/-! ## Helper lemmas about the room table -/

theorem lookup_setRoom_self (t : RoomTable) (r : RoomId) (ms : List ConnId) :
    lookupRoom (setRoom t r ms) r = some ms := by
  induction t with
  | nil => simp [setRoom, lookupRoom]
  | cons p t ih =>
      by_cases h : p.1 = r
      · obtain ⟨r', ms'⟩ := p
        simp only at h
        simp [setRoom, h, lookupRoom]
      · obtain ⟨r', ms'⟩ := p
        simp only at h
        simp [setRoom, h, lookupRoom, ih]

theorem lookup_delRoom_self (t : RoomTable) (r : RoomId) :
    lookupRoom (delRoom t r) r = none := by
  induction t with
  | nil => simp [delRoom, lookupRoom]
  | cons p t ih =>
      by_cases h : p.1 = r
      · simpa [delRoom, h, lookupRoom] using ih
      · simpa [delRoom, lookupRoom, List.filter_cons, h] using ih

theorem mem_setRoom (t : RoomTable) (r : RoomId) (ms : List ConnId)
    (p : RoomId × List ConnId) (hp : p ∈ setRoom t r ms) :
    p = (r, ms) ∨ p ∈ t := by
  induction t with
  | nil => simpa [setRoom] using hp
  | cons q t ih =>
      by_cases h : q.1 = r
      · obtain ⟨r', ms'⟩ := q
        simp only at h
        rw [setRoom, if_pos h] at hp
        rcases List.mem_cons.mp hp with h1 | h1
        · exact Or.inl h1
        · exact Or.inr (List.mem_cons_of_mem _ h1)
      · obtain ⟨r', ms'⟩ := q
        simp only at h
        rw [setRoom, if_neg h] at hp
        rcases List.mem_cons.mp hp with h1 | h1
        · exact Or.inr (h1 ▸ List.mem_cons_self _ _)
        · rcases ih h1 with h2 | h2
          · exact Or.inl h2
          · exact Or.inr (List.mem_cons_of_mem _ h2)

theorem mem_delRoom (t : RoomTable) (r : RoomId)
    (p : RoomId × List ConnId) (hp : p ∈ delRoom t r) :
    p ∈ t ∧ p.1 ≠ r := by
  unfold delRoom at hp
  have := List.of_mem_filter hp
  exact ⟨List.mem_of_mem_filter hp, by simpa using this⟩

theorem filter_ne_of_not_mem (p : List ConnId) (c : ConnId) (hc : c ∉ p) :
    p.filter (fun x => x ≠ c) = p :=
  List.filter_eq_self.mpr (fun a ha => by
    simp only [decide_eq_true_eq]
    rintro rfl
    exact hc ha)

/-! ## The join path -/

theorem joinRoom_step (s : ServerState) (c : ConnId) (R : RoomId)
    (p : List ConnId)
    (h1 : (lookupRoom s.rooms R).getD [] = p)
    (h2 : (lookupRoom s.adapter R).getD [] = p)
    (hc : c ∉ p) :
    (lookupRoom (joinRoom s c R).1.rooms R).getD [] = p ++ [c] ∧
    (lookupRoom (joinRoom s c R).1.adapter R).getD [] = p ++ [c] ∧
    (joinRoom s c R).2 = p.map (fun x => Event.userConnected x c) := by
  unfold joinRoom
  simp only [h1, h2, if_neg hc, lookup_setRoom_self, Option.getD_some]
  refine ⟨trivial, trivial, ?_⟩
  rw [List.filter_append, filter_ne_of_not_mem p c hc]
  simp

theorem joinAll_go (R : RoomId) (cs : List ConnId) :
    ∀ (p : List ConnId) (s : ServerState), (p ++ cs).Nodup →
    (lookupRoom s.rooms R).getD [] = p →
    (lookupRoom s.adapter R).getD [] = p →
    (lookupRoom (joinAll s R cs).1.rooms R).getD [] = p ++ cs ∧
    (joinAll s R cs).2 = specJoinNotices p cs := by
  induction cs with
  | nil =>
      intro p s _ h1 _
      simp [joinAll, specJoinNotices, h1]
  | cons c cs ih =>
      intro p s hnd h1 h2
      have hc : c ∉ p := by
        intro hm
        exact (List.disjoint_of_nodup_append hnd) hm (List.mem_cons_self _ _)
      obtain ⟨j1, j2, j3⟩ := joinRoom_step s c R p h1 h2 hc
      have hnd' : ((p ++ [c]) ++ cs).Nodup := by
        simpa [List.append_assoc] using hnd
      obtain ⟨g1, g2⟩ := ih (p ++ [c]) (joinRoom s c R).1 hnd' j1 j2
      refine ⟨?_, ?_⟩
      · show (lookupRoom (joinAll (joinRoom s c R).1 R cs).1.rooms R).getD []
            = p ++ c :: cs
        rw [g1]
        simp
      · show (joinRoom s c R).2 :: (joinAll (joinRoom s c R).1 R cs).2
            = specJoinNotices p (c :: cs)
        rw [j3, g2, specJoinNotices]

/-- Claim C1: starting from a table with no room `R`, a sequence of joins by
pairwise-distinct connections `c1..cn` leaves `R`'s member list equal to
`[c1..cn]` in join order, and the join of each `ci` emits `user-connected`
carrying `ci` to exactly the earlier joiners `c1..c(i-1)` and to nobody
else; in particular the first joiner's batch is empty. -/
theorem c1_join_sequence (R : RoomId) (cs : List ConnId) (s : ServerState)
    (hnd : cs.Nodup)
    (h1 : lookupRoom s.rooms R = none)
    (h2 : lookupRoom s.adapter R = none) :
    (lookupRoom (joinAll s R cs).1.rooms R).getD [] = cs ∧
    (cs ≠ [] → lookupRoom (joinAll s R cs).1.rooms R = some cs) ∧
    (joinAll s R cs).2 = specJoinNotices [] cs := by
  obtain ⟨g1, g2⟩ := joinAll_go R cs [] s (by simpa using hnd)
    (by simp [h1]) (by simp [h2])
  simp only [List.nil_append] at g1
  refine ⟨g1, ?_, g2⟩
  intro hne
  cases hl : lookupRoom (joinAll s R cs).1.rooms R with
  | none => rw [hl] at g1; exact absurd g1.symm hne
  | some ms => rw [hl] at g1; rw [Option.getD_some] at g1; rw [g1]

theorem c1_join_sequence_witness :
    (["A", "B"] : List ConnId).Nodup ∧
    lookupRoom initState.rooms "r1" = none ∧
    lookupRoom initState.adapter "r1" = none ∧
    ((lookupRoom (joinAll initState "r1" ["A", "B"]).1.rooms "r1").getD []
        = ["A", "B"] ∧
     ((["A", "B"] : List ConnId) ≠ [] →
        lookupRoom (joinAll initState "r1" ["A", "B"]).1.rooms "r1"
          = some ["A", "B"]) ∧
     (joinAll initState "r1" ["A", "B"]).2 = specJoinNotices [] ["A", "B"]) :=
  ⟨by decide, rfl, rfl,
   c1_join_sequence "r1" ["A", "B"] initState (by decide) rfl rfl⟩

/-! ## The no-empty-room invariant (claim C2) -/

theorem leaveBody_good (t ad : RoomTable) (c : ConnId) (R : RoomId)
    (hg : ∀ p ∈ t, p.2 ≠ []) (t' : RoomTable) (evs : List Event)
    (hok : leaveBody t ad c R = .ok (t', evs)) :
    ∀ p ∈ t', p.2 ≠ [] := by
  intro p hp
  unfold leaveBody at hok
  cases hl : lookupRoom t R with
  | none => rw [hl] at hok; cases hok
  | some ms =>
      rw [hl] at hok
      simp only at hok
      by_cases hlen : (ms.filter (fun x => x ≠ c)).length = 0
      · rw [if_pos hlen] at hok
        simp only [Except.ok.injEq, Prod.mk.injEq] at hok
        rw [← hok.1] at hp
        obtain ⟨hp1, _⟩ := mem_delRoom _ _ _ hp
        rcases mem_setRoom _ _ _ _ hp1 with h1 | h1
        · exact absurd (congrArg Prod.fst h1) (by simpa using (mem_delRoom _ _ _ hp).2)
        · exact hg p h1
      · rw [if_neg hlen] at hok
        simp only [Except.ok.injEq, Prod.mk.injEq] at hok
        rw [← hok.1] at hp
        rcases mem_setRoom _ _ _ _ hp with h1 | h1
        · rw [h1]
          intro hnil
          exact hlen (by simpa using congrArg List.length hnil)
        · exact hg p h1

theorem runLeaves_good (ad : RoomTable) (c : ConnId) (rs : List RoomId) :
    ∀ t, (∀ p ∈ t, p.2 ≠ []) → ∀ p ∈ (runLeaves ad c rs t).1, p.2 ≠ [] := by
  induction rs with
  | nil => intro t hg; simpa [runLeaves] using hg
  | cons R rs ih =>
      intro t hg p hp
      rw [runLeaves] at hp
      cases hok : leaveBody t ad c R with
      | error e => simp only [hok] at hp; exact hg p hp
      | ok out =>
          simp only [hok] at hp
          exact ih out.1 (leaveBody_good t ad c R hg out.1 out.2 (by rw [hok])) p hp

theorem step_good (s : ServerState) (op : Op)
    (hg : ∀ p ∈ s.rooms, p.2 ≠ []) :
    ∀ p ∈ (step s op).1.rooms, p.2 ≠ [] := by
  cases op with
  | connect c =>
      intro p hp
      by_cases h : c ∈ s.connected <;> simp [step, h] at hp <;> exact hg p hp
  | join c R =>
      intro p hp
      by_cases h : c ∈ s.connected
      · simp only [step, if_pos h] at hp
        have hp' : p ∈ setRoom s.rooms R
            (((lookupRoom s.rooms R).getD []) ++ [c]) := by
          simpa [joinRoom] using hp
        rcases mem_setRoom _ _ _ _ hp' with h1 | h1
        · rw [h1]; simp
        · exact hg p h1
      · simp [step, h] at hp; exact hg p hp
  | signal c t pl =>
      intro p hp
      by_cases h : c ∈ s.connected <;> simp [step, h] at hp <;> exact hg p hp
  | disconnect c =>
      intro p hp
      by_cases h : c ∈ s.connected
      · simp only [step, if_pos h, handleDisconnect] at hp
        exact runLeaves_good _ c _ s.rooms hg p hp
      · simp [step, h] at hp; exact hg p hp

theorem runFrom_good (ops : List Op) :
    ∀ s, (∀ p ∈ s.rooms, p.2 ≠ []) → ∀ p ∈ (runFrom s ops).rooms, p.2 ≠ [] := by
  induction ops with
  | nil => intro s hg; simpa [runFrom] using hg
  | cons op ops ih => intro s hg; rw [runFrom]; exact ih _ (step_good s op hg)

/-- Claim C2: after every finite sequence of transport operations from a
fresh server, no room entry with an empty member list exists: rooms are
created only at the first join (with the joiner already pushed) and the
disconnect listener deletes the entry as soon as the filtered member list is
empty. -/
theorem c2_no_empty_room (ops : List Op) :
    ∀ p ∈ (run ops).rooms, p.2 ≠ [] :=
  runFrom_good ops initState (by simp [initState])

theorem c2_no_empty_room_witness :
    ("r1", ["A"]) ∈ (run [Op.connect "A", Op.join "A" "r1"]).rooms ∧
    (("r1", ["A"]) : RoomId × List ConnId).2 ≠ [] :=
  ⟨by decide,
   c2_no_empty_room [Op.connect "A", Op.join "A" "r1"] ("r1", ["A"]) (by decide)⟩

/-- Claim C3 (refuted — code bug): the disconnect path is not a no-op on an
unknown `roomId`. `rooms[roomId]` is `undefined`, so
`rooms[roomId].filter(...)` throws a TypeError (`.error ()` here) instead of
returning quietly. The second conjunct shows the path is reachable: a socket
that joins the same room twice and then disconnects runs two leave
listeners; the first deletes the room, the second hits the unknown id and
throws. -/
theorem c3_leave_unknown_room_throws :
    leaveBody [] [] "c" "r1" = .error () ∧
    (handleDisconnect
        (run [Op.connect "c", Op.join "c" "r1", Op.join "c" "r1"]) "c").2.2
      = true := by
  exact ⟨rfl, rfl⟩

/-- Claim C4 (refuted — code bug): leave is not idempotent. With room `r1`
holding `[c, d]`, the first `leave(r1, c)` filters `c` out and notifies `d`;
the second, run on the same pair, leaves the member list unchanged but emits
`user-disconnected` to `d` again — a duplicate notification. The last
conjunct reproduces it end to end: `c` joins `r1` twice and disconnects once,
and `d` receives `user-disconnected c` twice. -/
theorem c4_leave_not_idempotent :
    leaveBody [("r1", ["c", "d"])] [("r1", ["d"])] "c" "r1"
      = .ok ([("r1", ["d"])], [Event.userDisconnected "d" "c"]) ∧
    leaveBody [("r1", ["d"])] [("r1", ["d"])] "c" "r1"
      = .ok ([("r1", ["d"])], [Event.userDisconnected "d" "c"]) ∧
    (step (run [Op.connect "d", Op.connect "c", Op.join "d" "r1",
                Op.join "c" "r1", Op.join "c" "r1"]) (Op.disconnect "c")).2
      = [Event.userDisconnected "d" "c", Event.userDisconnected "d" "c"] := by
  exact ⟨rfl, rfl, rfl⟩

/-- Claim C5: forwarding a signal to a live connection `b` delivers exactly
the single message `{sender := a, signal := payload}` to `b` and to nobody
else; forwarding to a dead connection delivers nothing and raises no error
(`forward` is total); and delivery is independent of all room state — the
relay never checks that `a` and `b` share a room. -/
theorem c5_forward_delivery (s : ServerState) (a b : ConnId) (pl : String) :
    (b ∈ s.connected → forward s a b pl = [Event.signalMsg b a pl]) ∧
    (b ∉ s.connected → forward s a b pl = []) ∧
    (∀ rs ad hs, forward ⟨rs, ad, s.connected, hs⟩ a b pl
        = forward s a b pl) := by
  refine ⟨fun h => ?_, fun h => ?_, fun rs ad hs => ?_⟩
  · simp [forward, h]
  · simp [forward, h]
  · simp [forward]

theorem c5_forward_delivery_witness :
    (("b" : ConnId) ∈ (⟨[], [], ["b"], []⟩ : ServerState).connected ∧
     forward ⟨[], [], ["b"], []⟩ "a" "b" "x" = [Event.signalMsg "b" "a" "x"]) ∧
    (("b" : ConnId) ∉ initState.connected ∧
     forward initState "a" "b" "x" = []) :=
  ⟨⟨by decide, (c5_forward_delivery ⟨[], [], ["b"], []⟩ "a" "b" "x").1 (by decide)⟩,
   ⟨by decide, (c5_forward_delivery initState "a" "b" "x").2.1 (by decide)⟩⟩

/-- Claim C6: a second join of `c` to a room it is already in appends a
second occurrence of `c` (no de-duplication guard), and a subsequent leave
removes all occurrences of `c` from the member list in one filter pass. -/
theorem c6_duplicate_join_and_filter (s : ServerState) (c : ConnId)
    (R : RoomId) (ms : List ConnId)
    (h : lookupRoom s.rooms R = some ms) (hc : c ∈ ms) :
    (lookupRoom (joinRoom s c R).1.rooms R = some (ms ++ [c]) ∧
     2 ≤ (ms ++ [c]).count c) ∧
    ∀ ad, ∃ t' evs,
      leaveBody (joinRoom s c R).1.rooms ad c R = .ok (t', evs) ∧
      (lookupRoom t' R).getD [] = ms.filter (fun x => x ≠ c) ∧
      c ∉ (lookupRoom t' R).getD [] := by
  have hrooms : (joinRoom s c R).1.rooms = setRoom s.rooms R (ms ++ [c]) := by
    simp [joinRoom, h]
  constructor
  · constructor
    · rw [hrooms, lookup_setRoom_self]
    · rw [List.count_append]
      have h1 : 0 < ms.count c := List.count_pos_iff.mpr hc
      have h2 : List.count c [c] = 1 := by simp
      omega
  · intro ad
    rw [hrooms]
    unfold leaveBody
    rw [lookup_setRoom_self]
    have hfilter : (ms ++ [c]).filter (fun x => x ≠ c)
        = ms.filter (fun x => x ≠ c) := by
      rw [List.filter_append]
      simp
    simp only [hfilter]
    by_cases hlen : (ms.filter (fun x => x ≠ c)).length = 0
    · rw [if_pos hlen]
      refine ⟨_, _, rfl, ?_, ?_⟩
      · rw [lookup_delRoom_self]
        simpa using (List.length_eq_zero.mp hlen).symm
      · rw [lookup_delRoom_self]
        simp
    · rw [if_neg hlen]
      refine ⟨_, _, rfl, ?_, ?_⟩
      · rw [lookup_setRoom_self]
        rfl
      · rw [lookup_setRoom_self]
        simp [List.mem_filter]

theorem c6_duplicate_join_and_filter_witness :
    lookupRoom (⟨[("r1", ["c", "d"])], [("r1", ["c", "d"])], ["c", "d"],
        [("c", "r1"), ("d", "r1")]⟩ : ServerState).rooms "r1"
      = some ["c", "d"] ∧
    ("c" : ConnId) ∈ ["c", "d"] ∧
    ((lookupRoom (joinRoom ⟨[("r1", ["c", "d"])], [("r1", ["c", "d"])],
        ["c", "d"], [("c", "r1"), ("d", "r1")]⟩ "c" "r1").1.rooms "r1"
        = some (["c", "d"] ++ ["c"]) ∧
      2 ≤ (["c", "d"] ++ ["c"]).count "c") ∧
    ∀ ad, ∃ t' evs,
      leaveBody (joinRoom ⟨[("r1", ["c", "d"])], [("r1", ["c", "d"])],
          ["c", "d"], [("c", "r1"), ("d", "r1")]⟩ "c" "r1").1.rooms ad "c" "r1"
        = .ok (t', evs) ∧
      (lookupRoom t' "r1").getD [] = ["c", "d"].filter (fun x => x ≠ "c") ∧
      ("c" : ConnId) ∉ (lookupRoom t' "r1").getD []) :=
  ⟨by decide, by decide,
   c6_duplicate_join_and_filter _ "c" "r1" ["c", "d"] (by decide) (by decide)⟩

/-- Claim C7: when the upstream keeps answering HTTP 429, `retryRequest`
retries 3 times with the exponential delays 1000ms, 2000ms and 4000ms and
then propagates the 429 failure; any upstream error other than 429 on the
first attempt is propagated immediately, with no retry and no delay. -/
theorem c7_retry_policy (u : Nat → UpstreamResult) :
    ((∀ i, i ≤ 3 → u i = .failure (some 429)) →
      retryRequest u 0 3 1000 = (.error (some 429), [1000, 2000, 4000])) ∧
    (∀ st, u 0 = .failure st → st ≠ some 429 →
      retryRequest u 0 3 1000 = (.error st, [])) := by
  constructor
  · intro h
    have h0 := h 0 (by omega)
    have h1 := h 1 (by omega)
    have h2 := h 2 (by omega)
    have h3 := h 3 (by omega)
    simp [retryRequest, h0, h1, h2, h3]
  · intro st h0 hne
    simp [retryRequest, h0, hne]

theorem c7_retry_policy_witness :
    retryRequest (fun _ => .failure (some 429)) 0 3 1000
      = (.error (some 429), [1000, 2000, 4000]) ∧
    retryRequest (fun _ => .failure (some 500)) 0 3 1000
      = (.error (some 500), []) :=
  ⟨(c7_retry_policy (fun _ => .failure (some 429))).1 (fun i _ => rfl),
   (c7_retry_policy (fun _ => .failure (some 500))).2 (some 500) rfl
     (by decide)⟩

/-- Claim C8 counterexample: the claim covers both endpoints, but
`POST /summarize-conversation` performs no validation at all — with
`conversationText` missing it still attempts the upstream call (second
component `true`) and answers 200/500, never 400. -/
theorem c8_counterexample :
    summarizeConversation (fun _ => .success "sum") none
      = (.okSummary "sum", true) := by
  simp [summarizeConversation, retryRequest]

/-- Claim C8 amended: a `POST /detect-and-translate` request missing `text`
or `targetLanguage` gets an immediate 400 and no upstream call is attempted;
`POST /summarize-conversation`, however, validates nothing and always
attempts the upstream call, even with `conversationText` missing. -/
theorem c8_missing_field_handling
    (dOr : String → Except String (Option String))
    (tOr : String → String → String → Except String (Option String))
    (text tl : Option String)
    (u : Nat → UpstreamResult) (ct : Option String)
    (hmiss : text = none ∨ tl = none) :
    detectAndTranslate dOr tOr text tl = (.badRequest, []) ∧
    (summarizeConversation u ct).2 = true := by
  constructor
  · rcases hmiss with h | h <;> subst h <;> simp [detectAndTranslate, truthy]
  · unfold summarizeConversation
    cases hres : (retryRequest u 0 3 1000).1 <;> simp [hres]

theorem c8_missing_field_handling_witness :
    (some "x" = (none : Option String) ∨ (none : Option String) = none) ∧
    (detectAndTranslate (fun _ => .ok (some "en")) (fun _ _ _ => .ok (some "t"))
        (some "x") none = (.badRequest, []) ∧
     (summarizeConversation (fun _ => .success "s") none).2 = true) :=
  ⟨Or.inr rfl,
   c8_missing_field_handling (fun _ => .ok (some "en"))
     (fun _ _ _ => .ok (some "t")) (some "x") none
     (fun _ => .success "s") none (Or.inr rfl)⟩

/-- Claim C9: when detection returns exactly the requested target language,
`POST /detect-and-translate` answers 200 with the detected language, the
original text unmodified, and the fixed message — and the translation
endpoint is never called (the call list stops at `detect`). -/
theorem c9_same_language_skips_translation
    (dOr : String → Except String (Option String))
    (tOr : String → String → String → Except String (Option String))
    (t tl : String) (ht : t ≠ "") (htl : tl ≠ "")
    (hd : dOr t = .ok (some tl)) :
    detectAndTranslate dOr tOr (some t) (some tl)
      = (.okSame tl t
          "The detected language is the same as the target language.",
         [.detect]) := by
  simp [detectAndTranslate, truthy, ht, htl, hd]

theorem c9_same_language_skips_translation_witness :
    ("Hola" : String) ≠ "" ∧ ("es" : String) ≠ "" ∧
    (fun _ : String => (.ok (some "es") : Except String (Option String)))
        "Hola" = .ok (some "es") ∧
    detectAndTranslate (fun _ => .ok (some "es")) (fun _ _ _ => .ok (some "t"))
        (some "Hola") (some "es")
      = (.okSame "es" "Hola"
          "The detected language is the same as the target language.",
         [.detect]) :=
  ⟨by decide, by decide, rfl,
   c9_same_language_skips_translation (fun _ => .ok (some "es"))
     (fun _ _ _ => .ok (some "t")) "Hola" "es" (by decide) (by decide) rfl⟩

/-- Claim C10: a connection that never joined has no registered listeners
(the `signal` and `disconnect` listeners are installed only inside the
`join-room` handler), so its `signal` events deliver nothing, and its
disconnect leaves the room table untouched, emits no notification, and
throws nothing. -/
theorem c10_never_joined (s : ServerState) (c target : ConnId) (pl : String)
    (h : ∀ hd ∈ s.handlers, hd.1 ≠ c) :
    handleSignal s c target pl = [] ∧
    (handleDisconnect s c).1.rooms = s.rooms ∧
    (handleDisconnect s c).2.1 = [] ∧
    (handleDisconnect s c).2.2 = false := by
  have hfilter : s.handlers.filter (fun hd => hd.1 = c) = [] :=
    List.filter_eq_nil_iff.mpr (fun a ha => by simpa using h a ha)
  refine ⟨?_, ?_, ?_, ?_⟩ <;>
    simp [handleSignal, handleDisconnect, hfilter, runLeaves]

theorem c10_never_joined_witness :
    (∀ hd ∈ (⟨[("r1", ["d"])], [("r1", ["d"])], ["d", "c"],
        [("d", "r1")]⟩ : ServerState).handlers, hd.1 ≠ "c") ∧
    (handleSignal ⟨[("r1", ["d"])], [("r1", ["d"])], ["d", "c"],
        [("d", "r1")]⟩ "c" "d" "x" = [] ∧
     (handleDisconnect ⟨[("r1", ["d"])], [("r1", ["d"])], ["d", "c"],
        [("d", "r1")]⟩ "c").1.rooms = [("r1", ["d"])] ∧
     (handleDisconnect ⟨[("r1", ["d"])], [("r1", ["d"])], ["d", "c"],
        [("d", "r1")]⟩ "c").2.1 = [] ∧
     (handleDisconnect ⟨[("r1", ["d"])], [("r1", ["d"])], ["d", "c"],
        [("d", "r1")]⟩ "c").2.2 = false) :=
  ⟨by decide,
   c10_never_joined ⟨[("r1", ["d"])], [("r1", ["d"])], ["d", "c"],
     [("d", "r1")]⟩ "c" "d" "x" (by decide)⟩
